import Mathlib

/-!
Shallow embedding of `examples/data-processor/scripts/summarize_nyc_taxi_data.py`.

The script loads a parquet table from object storage, drops null-containing
rows, computes three aggregates (per-vendor summary, top-10 trips by fare,
payment-type distribution with percentages), assembles a JSON result document
and uploads it, then stops the Spark session.

Rows are embedded as records over `ℚ` fares; columnar null-ability is embedded
with `Option` fields on raw rows.  The Spark dataframe operations used by the
script (groupBy/agg, orderBy, limit, withColumn, count) are embedded as the
corresponding list operations; `f.round(_, 2)` is HALF_UP rounding to two
decimals, embedded exactly on `ℚ`.
-/

/-- One raw row of the input table, before `dropna`: every column may be null.
`extra` stands for the remaining original columns of the trip record. -/
structure RawRow where
  vendorID : Option String
  fare : Option ℚ
  payment : Option Int
  extra : List (Option String)
  deriving DecidableEq, Repr

/-- One null-free row of the table after `dropna`. -/
structure TripRow where
  vendorID : String
  fare : ℚ
  payment : Int
  extra : List String
  deriving DecidableEq, Repr

/-- All entries non-null, or fail. -/
def allSome : List (Option String) → Option (List String)
  | [] => some []
  | none :: _ => none
  | some x :: xs => (allSome xs).map (x :: ·)

/-- A raw row survives `dropna` iff none of its fields is null. -/
def RawRow.denull (r : RawRow) : Option TripRow :=
  match r.vendorID, r.fare, r.payment, allSome r.extra with
  | some v, some fr, some p, some ex => some ⟨v, fr, p, ex⟩
  | _, _, _, _ => none

/-- `df.dropna()` (line 39): keep exactly the rows with no null field. -/
def dropna (l : List RawRow) : List TripRow :=
  l.filterMap RawRow.denull

/-- The `payment_map` dict literal of `map_payment_type` (lines 12-19). -/
def payment_map : List (Int × String) :=
  [(1, "Credit card"), (2, "Cash"), (3, "No charge"),
   (4, "Dispute"), (5, "Unknown"), (6, "Voided trip")]

/-- `map_payment_type` (lines 11-20): `payment_map.get(payment_type, "Other")`. -/
def map_payment_type (payment_type : Int) : String :=
  (payment_map.lookup payment_type).getD "Other"

/-- The fare column of a list of rows. -/
def fares (g : List TripRow) : List ℚ :=
  g.map (·.fare)

/-- One output row of the per-vendor summary (lines 42-46). -/
structure VendorSummary where
  VendorID : String
  avg_fare : ℚ
  num_trips : Nat
  total_fare : ℚ
  deriving DecidableEq, Repr

/-- `df.groupBy("VendorID").agg(avg(..), count(*), sum(..))` (lines 42-46):
one row per distinct `VendorID`, carrying mean fare, row count and fare sum
of the group. -/
def df_summary (df : List TripRow) : List VendorSummary :=
  ((df.map (·.vendorID)).dedup).map fun v =>
    let g := df.filter (fun r => r.vendorID = v)
    { VendorID := v
      avg_fare := (fares g).sum / (g.length : ℚ)
      num_trips := g.length
      total_fare := (fares g).sum }

/-- `df.orderBy(col("fare_amount").desc())` (line 49): sort rows by fare,
descending. -/
def sortDescByFare (df : List TripRow) : List TripRow :=
  df.mergeSort (fun a b => decide (b.fare ≤ a.fare))

/-- `df.orderBy(col("fare_amount").desc()).limit(10)` (line 49). -/
def top_10_expensive_trips (df : List TripRow) : List TripRow :=
  (sortDescByFare df).take 10

/-- HALF_UP rounding of a rational to an integer, as used by Spark `round`:
ties are rounded away from zero. -/
def roundHalfUp (x : ℚ) : Int :=
  if 0 ≤ x then ⌊x + 1/2⌋ else -⌊-x + 1/2⌋

/-- `f.round(x, 2)`: HALF_UP rounding to two decimal places. -/
def round2 (x : ℚ) : ℚ :=
  (roundHalfUp (100 * x) : ℚ) / 100

/-- The rows whose `payment_type` equals `p`. -/
def paymentGroup (df : List TripRow) (p : Int) : List TripRow :=
  df.filter (fun r => r.payment = p)

/-- One row of `payment_type_distribution`, before the `percentage` column is
added (lines 54-59). -/
structure PaymentRow where
  payment_type : Int
  trip_count : Nat
  avg_fare : ℚ
  total_fare : ℚ
  payment_type_desc : String
  deriving DecidableEq, Repr

/-- One row of `payment_type_percentage` (lines 62-64). -/
structure PaymentSummary where
  payment_type : Int
  trip_count : Nat
  avg_fare : ℚ
  total_fare : ℚ
  payment_type_desc : String
  percentage : ℚ
  deriving DecidableEq, Repr

/-- `df.groupBy("payment_type").agg(count, round(avg,2), round(sum,2))
.withColumn("payment_type_desc", map_payment_type_udf(..))
.orderBy(col("trip_count").desc())` (lines 54-59). -/
def payment_type_distribution (df : List TripRow) : List PaymentRow :=
  (((df.map (·.payment)).dedup).map fun p =>
    let g := paymentGroup df p
    { payment_type := p
      trip_count := g.length
      avg_fare := round2 ((fares g).sum / (g.length : ℚ))
      total_fare := round2 ((fares g).sum)
      payment_type_desc := map_payment_type p }).mergeSort
    (fun a b => decide (b.trip_count ≤ a.trip_count))

/-- `total_trips = df.count()` then
`withColumn("percentage", round((trip_count / total_trips) * 100, 2))`
(lines 61-64).  The denominator is the row count of the null-dropped frame. -/
def payment_type_percentage (df : List TripRow) : List PaymentSummary :=
  (payment_type_distribution df).map fun r =>
    { payment_type := r.payment_type
      trip_count := r.trip_count
      avg_fare := r.avg_fare
      total_fare := r.total_fare
      payment_type_desc := r.payment_type_desc
      percentage := round2 (((r.trip_count : ℚ) / (df.length : ℚ)) * 100) }

/-- Python single-character `str.split`: `splitOnChar c l` cuts `l` at every
occurrence of `c`; the result is never empty and keeps empty chunks. -/
def splitOnChar (c : Char) : List Char → List (List Char)
  | [] => [[]]
  | x :: xs =>
    match splitOnChar c xs with
    | [] => [[]]
    | y :: ys => if x = c then [] :: y :: ys else (x :: y) :: ys

/-- `input_file_name.split("/")[-1]` (line 68): the last chunk of the key,
split on `/`. -/
def data_file_of (key : String) : String :=
  String.mk ((splitOnChar '/' key.toList).getLastD [])

/-- A value of the result document: either a string field or one of the three
row arrays. -/
inductive JsonVal where
  | str : String → JsonVal
  | vendorArr : List VendorSummary → JsonVal
  | tripArr : List TripRow → JsonVal
  | paymentArr : List PaymentSummary → JsonVal
  deriving DecidableEq, Repr

/-- The `result` dict literal (lines 67-73), as an ordered key/value list. -/
def buildResult (input_bucket_name input_file_name : String)
    (df : List TripRow) : List (String × JsonVal) :=
  [("data_file", .str (data_file_of input_file_name)),
   ("source_url", .str ("s3://" ++ input_bucket_name ++ input_file_name)),
   ("data_summary", .vendorArr (df_summary df)),
   ("top_10_most_expensive_trips", .tripArr (top_10_expensive_trips df)),
   ("payment_types", .paymentArr (payment_type_percentage df))]

/-! ### Control-flow model of `main` and the `__main__` gate

`main` is straight-line code with no exception handler: the Spark session is
created (line 29), the table is loaded (lines 35-39), the three aggregates are
collected while the `result` dict is built (lines 67-73), the serialized
document is uploaded (lines 76-78) and only then is `spark.stop()` reached
(line 80).  An exception at any stage propagates and skips the rest.  `Env`
says which externally-fallible steps succeed on a given run. -/

/-- Outcome of each externally-fallible step of one run. -/
structure Env where
  load : Option (List RawRow)
  collect_summary_ok : Bool
  collect_top_ok : Bool
  collect_payment_ok : Bool
  dumps_ok : Bool
  put_ok : Bool
  deriving DecidableEq, Repr

/-- Observable effects of `main`, in order of occurrence. -/
inductive Event where
  | getOrCreate
  | s3Read (bucket key : String)
  | s3PutSuccess (bucket key : String) (doc : List (String × JsonVal))
  | sparkStop
  deriving DecidableEq, Repr

/-- Whether an event is a successful write of an output object. -/
def Event.isPut : Event → Bool
  | .s3PutSuccess _ _ _ => true
  | _ => false

/-- The body of `main` (lines 22-82): the trace of effects of one run, and
whether `main` returned normally (`false` means an exception propagated). -/
def mainRun (env : Env) (input_bucket_name input_file_name
    output_bucket_name output_file_name : String) : List Event × Bool :=
  let t0 : List Event := [Event.getOrCreate]
  match env.load with
  | none => (t0 ++ [Event.s3Read input_bucket_name input_file_name], false)
  | some raw =>
    let t1 := t0 ++ [Event.s3Read input_bucket_name input_file_name]
    let df := dropna raw
    if env.collect_summary_ok = false then (t1, false)
    else if env.collect_top_ok = false then (t1, false)
    else if env.collect_payment_ok = false then (t1, false)
    else
      let result := buildResult input_bucket_name input_file_name df
      if env.dumps_ok = false then (t1, false)
      else if env.put_ok = false then (t1, false)
      else (t1 ++ [Event.s3PutSuccess output_bucket_name output_file_name result,
                   Event.sparkStop], true)

/-- Spec refinement: the base name of a key, "the substring after the last
`/`" (the whole key when it has no `/`), written independently of
`str.split`. -/
def baseNameSpec (key : String) : String :=
  String.mk ((key.toList.reverse.takeWhile (fun x => x ≠ '/')).reverse)

/-- Spec refinement: the fixed lookup table of the claim, with `"Other"` for
any code outside `{1..6}`. -/
def paymentDescSpec (code : Int) : String :=
  if code = 1 then "Credit card"
  else if code = 2 then "Cash"
  else if code = 3 then "No charge"
  else if code = 4 then "Dispute"
  else if code = 5 then "Unknown"
  else if code = 6 then "Voided trip"
  else "Other"

/-- The spec's per-vendor example table: vendor `V1` with fares 10, 20, 30 and
vendor `V2` with fares 5, 15. -/
def exVendor : List TripRow :=
  [⟨"V1", 10, 1, []⟩, ⟨"V1", 20, 1, []⟩, ⟨"V1", 30, 1, []⟩,
   ⟨"V2", 5, 1, []⟩, ⟨"V2", 15, 1, []⟩]

/-- The spec's payment-type example table: payment codes 1, 1, 2. -/
def exPay : List TripRow :=
  [⟨"A", 10, 1, []⟩, ⟨"B", 20, 1, []⟩, ⟨"C", 30, 2, []⟩]

/-- `exPay` plus one row with a null fare: its null-dropped form is `exPay`. -/
def exRaw : List RawRow :=
  [⟨some "A", some 10, some 1, []⟩, ⟨some "B", some 20, some 1, []⟩,
   ⟨some "C", some 30, some 2, []⟩, ⟨some "D", none, some 1, []⟩]

/-- The spec's top-10 example table: twelve rows with fares 12 down to 1
(already in descending fare order). -/
def exTop : List TripRow :=
  [⟨"T12", 12, 1, []⟩, ⟨"T11", 11, 1, []⟩, ⟨"T10", 10, 1, []⟩,
   ⟨"T9", 9, 1, []⟩, ⟨"T8", 8, 1, []⟩, ⟨"T7", 7, 1, []⟩,
   ⟨"T6", 6, 1, []⟩, ⟨"T5", 5, 1, []⟩, ⟨"T4", 4, 1, []⟩,
   ⟨"T3", 3, 1, []⟩, ⟨"T2", 2, 1, []⟩, ⟨"T1", 1, 1, []⟩]

/-- An `Env` on which every external step succeeds, over an empty input. -/
def envAllOk : Env :=
  ⟨some [], true, true, true, true, true⟩

/-- An `Env` on which the S3 read of the input table raises. -/
def envLoadFail : Env :=
  ⟨none, true, true, true, true, true⟩

/-- Observable effects of the `__main__` gate (lines 85-91). -/
inductive TopEvent where
  | printArgCount (n : Nat)
  | printUsage
  | exitStatus (n : Nat)
  | ranMain (t : List Event) (ok : Bool)
  deriving DecidableEq, Repr

/-- The `__main__` gate (lines 85-91): print `len(sys.argv)`; if the argument
count is not 5 (program name plus four positional arguments), print usage and
`sys.exit(0)`; otherwise run `main(sys.argv)`. -/
def topLevel (argv : List String) (env : Env) : List TopEvent :=
  let p := [TopEvent.printArgCount argv.length]
  if argv.length = 5 then
    match argv with
    | _ :: a1 :: a2 :: a3 :: a4 :: _ =>
      let r := mainRun env a1 a2 a3 a4
      p ++ [TopEvent.ranMain r.1 r.2]
    | _ => p
  else
    p ++ [TopEvent.printUsage, TopEvent.exitStatus 0]

/-! ### Helper lemmas -/

/-- Rounding to the nearest integer with ties upward moves a rational by at
most `1/2`. -/
theorem abs_floor_add_half_sub_le (z : ℚ) : |((⌊z + 1/2⌋ : ℤ) : ℚ) - z| ≤ 1/2 := by
  have h1 : ((⌊z + 1/2⌋ : ℤ) : ℚ) ≤ z + 1/2 := Int.floor_le _
  have h2 : z + 1/2 < ((⌊z + 1/2⌋ : ℤ) : ℚ) + 1 := Int.lt_floor_add_one _
  rw [abs_le]
  constructor <;> linarith

/-- HALF_UP rounding moves a rational by at most `1/2`. -/
theorem abs_roundHalfUp_sub_le (y : ℚ) : |((roundHalfUp y : ℤ) : ℚ) - y| ≤ 1/2 := by
  unfold roundHalfUp
  split
  · exact abs_floor_add_half_sub_le y
  · have h := abs_floor_add_half_sub_le (-y)
    have he : (((-⌊-y + 1/2⌋ : ℤ) : ℚ)) - y = -(((⌊-y + 1/2⌋ : ℤ) : ℚ) - (-y)) := by
      push_cast
      ring
    rw [he, abs_neg]
    exact h

/-- HALF_UP rounding to two decimals moves a rational by at most `1/200`. -/
theorem abs_round2_sub_le (x : ℚ) : |round2 x - x| ≤ 1/200 := by
  have h := abs_roundHalfUp_sub_le (100 * x)
  have he : round2 x - x = (((roundHalfUp (100 * x) : ℤ) : ℚ) - 100 * x) / 100 := by
    unfold round2
    ring
  rw [he, abs_div]
  rw [show |(100 : ℚ)| = 100 by norm_num]
  linarith

/-- Summing two-decimal roundings of a list moves its sum by at most `1/200`
per entry. -/
theorem abs_sum_map_round2_sub_le :
    ∀ xs : List ℚ, |(xs.map round2).sum - xs.sum| ≤ (xs.length : ℚ) * (1/200)
  | [] => by simp
  | x :: xs => by
    have h1 := abs_round2_sub_le x
    have h2 := abs_sum_map_round2_sub_le xs
    simp only [List.map_cons, List.sum_cons, List.length_cons]
    have he : round2 x + (xs.map round2).sum - (x + xs.sum)
        = (round2 x - x) + ((xs.map round2).sum - xs.sum) := by ring
    rw [he]
    calc |(round2 x - x) + ((xs.map round2).sum - xs.sum)|
        ≤ |round2 x - x| + |(xs.map round2).sum - xs.sum| := abs_add _ _
      _ ≤ 1/200 + (xs.length : ℚ) * (1/200) := add_le_add h1 h2
      _ = ((xs.length : ℚ) + 1) * (1/200) := by ring
      _ = (((xs.length : Nat) + 1 : Nat) : ℚ) * (1/200) := by push_cast; ring

/-- The rows matching a key and those not matching it split a list. -/
theorem length_filter_add_length_filter_not {R K : Type} [DecidableEq K]
    (f : R → K) (k : K) :
    ∀ m : List R, (m.filter (fun r => decide (f r = k))).length
        + (m.filter (fun r => !decide (f r = k))).length = m.length
  | [] => rfl
  | a :: t => by
    have ih := length_filter_add_length_filter_not f k t
    by_cases hfa : f a = k
    · have h1 : (decide (f a = k)) = true := by simp [hfa]
      simp only [List.filter_cons, h1, Bool.not_true, Bool.false_eq_true, if_true,
        if_false, ite_true, ite_false, List.length_cons]
      omega
    · have h1 : (decide (f a = k)) = false := by simp [hfa]
      simp only [List.filter_cons, h1, Bool.not_false, Bool.false_eq_true, if_true,
        if_false, ite_true, ite_false, List.length_cons]
      omega

/-- Grouping a list by a nodup covering key list partitions it: the group
sizes sum to the length of the list. -/
theorem sum_map_length_filter_eq_length {K R : Type} [DecidableEq K] (f : R → K) :
    ∀ (keys : List K) (l : List R), keys.Nodup → (∀ r ∈ l, f r ∈ keys) →
      (keys.map fun k => (l.filter (fun r => decide (f r = k))).length).sum = l.length
  | [], l, _, hcov => by
    cases l with
    | nil => rfl
    | cons a t => exact absurd (hcov a (List.mem_cons_self a t)) (List.not_mem_nil _)
  | k :: ks, l, hnd, hcov => by
    have hk : k ∉ ks := (List.nodup_cons.mp hnd).1
    have hnd' : ks.Nodup := (List.nodup_cons.mp hnd).2
    have hcov' : ∀ r ∈ l.filter (fun r => !decide (f r = k)), f r ∈ ks := by
      intro r hr
      have hmem := List.mem_of_mem_filter hr
      have hne : ¬ (f r = k) := by
        have := List.of_mem_filter hr
        simpa using this
      rcases List.mem_cons.mp (hcov r hmem) with h | h
      · exact absurd h hne
      · exact h
    have ih := sum_map_length_filter_eq_length f ks
      (l.filter (fun r => !decide (f r = k))) hnd' hcov'
    have htail : ∀ k' ∈ ks,
        (l.filter (fun r => decide (f r = k'))).length
          = ((l.filter (fun r => !decide (f r = k))).filter
              (fun r => decide (f r = k'))).length := by
      intro k' hk'
      have hkk : k' ≠ k := fun he => hk (he ▸ hk')
      rw [List.filter_filter]
      congr 1
      apply List.filter_congr
      intro a _
      by_cases hfa : f a = k'
      · simp [hfa, hkk]
      · simp [hfa]
    have hsplit : (l.filter (fun r => decide (f r = k))).length
        + (l.filter (fun r => !decide (f r = k))).length = l.length :=
      length_filter_add_length_filter_not f k l
    calc ((k :: ks).map fun k => (l.filter (fun r => decide (f r = k))).length).sum
        = (l.filter (fun r => decide (f r = k))).length
          + (ks.map fun k' => (l.filter (fun r => decide (f r = k'))).length).sum := by
          simp
      _ = (l.filter (fun r => decide (f r = k))).length
          + (ks.map fun k' => ((l.filter (fun r => !decide (f r = k))).filter
              (fun r => decide (f r = k'))).length).sum := by
          rw [List.map_congr_left htail]
      _ = (l.filter (fun r => decide (f r = k))).length
          + (l.filter (fun r => !decide (f r = k))).length := by rw [ih]
      _ = l.length := hsplit

/-- Pulling a division-and-scale out of a list sum. -/
theorem sum_map_div_mul (rows : List PaymentRow) (N : ℚ) :
    (rows.map (fun r => ((r.trip_count : ℚ) / N) * 100)).sum
      = ((rows.map (fun r => (r.trip_count : ℚ))).sum / N) * 100 := by
  induction rows with
  | nil => simp
  | cons a t ih =>
    simp only [List.map_cons, List.sum_cons, ih]
    ring

/-- `mergeSort` keeps a two-element list that is already ordered. -/
theorem mergeSort_pair {α : Type} (le : α → α → Bool) (a b : α) (h : le a b) :
    [a, b].mergeSort le = [a, b] :=
  List.mergeSort_of_sorted (by simp [h])

/-- `splitOnChar` always yields at least one chunk. -/
theorem splitOnChar_ne_nil (c : Char) : ∀ l : List Char, splitOnChar c l ≠ []
  | [] => by simp [splitOnChar]
  | x :: xs => by
    cases hsp : splitOnChar c xs with
    | nil => simp [splitOnChar, hsp]
    | cons y ys =>
      simp only [splitOnChar, hsp]
      split <;> simp

/-- Without the separator, `splitOnChar` yields the single full chunk. -/
theorem splitOnChar_of_not_mem (c : Char) :
    ∀ l : List Char, c ∉ l → splitOnChar c l = [l]
  | [], _ => rfl
  | x :: xs, h => by
    have hx : ¬ (x = c) := fun he => h (he ▸ List.mem_cons_self x xs)
    have hxs : c ∉ xs := fun hm => h (List.mem_cons_of_mem _ hm)
    simp only [splitOnChar, splitOnChar_of_not_mem c xs hxs]
    simp [hx]

/-- With the separator present, `splitOnChar` yields at least two chunks. -/
theorem two_le_length_splitOnChar (c : Char) :
    ∀ l : List Char, c ∈ l → 2 ≤ (splitOnChar c l).length
  | x :: xs, h => by
    cases hsp : splitOnChar c xs with
    | nil => exact absurd hsp (splitOnChar_ne_nil c xs)
    | cons y ys =>
      rcases List.mem_cons.mp h with h1 | h2
      · simp only [splitOnChar, hsp, h1.symm, if_true]
        simp
      · have hlen := two_le_length_splitOnChar c xs h2
        rw [hsp] at hlen
        simp only [splitOnChar, hsp]
        simp at hlen
        split <;> simp <;> omega

/-- The last chunk of `splitOnChar` is the reversed longest separator-free
suffix: exactly "the substring after the last separator". -/
theorem getLastD_splitOnChar (c : Char) : ∀ l : List Char,
    (splitOnChar c l).getLastD []
      = (l.reverse.takeWhile (fun x => decide ¬(x = c))).reverse
  | [] => rfl
  | x :: xs => by
    by_cases hmem : c ∈ xs
    · have ih := getLastD_splitOnChar c xs
      have hlen := two_le_length_splitOnChar c xs hmem
      cases hsp : splitOnChar c xs with
      | nil => exact absurd hsp (splitOnChar_ne_nil c xs)
      | cons y ys =>
        rw [hsp] at ih hlen
        cases ys with
        | nil => simp at hlen
        | cons z zs =>
          have hL : (splitOnChar c (x :: xs)).getLastD []
              = (splitOnChar c xs).getLastD [] := by
            simp only [splitOnChar, hsp]
            split <;>
              simp [List.getLastD_eq_getLast?, List.getLast?_cons_cons]
          have hR : ((x :: xs).reverse.takeWhile (fun x => decide ¬(x = c))).reverse
              = (xs.reverse.takeWhile (fun x => decide ¬(x = c))).reverse := by
            have hnall : ¬ ((xs.reverse.takeWhile
                (fun x => decide ¬(x = c))).length = xs.reverse.length) := by
              intro hlen2
              have hall := List.takeWhile_eq_self_iff.mp
                ((List.takeWhile_sublist _).eq_of_length hlen2)
              have : c ∈ xs.reverse := List.mem_reverse.mpr hmem
              have := hall c this
              simp at this
            rw [List.reverse_cons, List.takeWhile_append]
            rw [if_neg hnall]
          rw [hL, hsp, hR, ih]
    · have hsp := splitOnChar_of_not_mem c xs hmem
      have hallxs : ∀ a ∈ xs.reverse, (fun x => decide ¬(x = c)) a = true := by
        intro a ha
        have : a ∈ xs := List.mem_reverse.mp ha
        have : ¬ (a = c) := fun he => hmem (he ▸ this)
        simpa using this
      by_cases hx : x = c
      · subst hx
        simp only [splitOnChar, hsp, if_true]
        rw [List.reverse_cons, List.takeWhile_append_of_pos hallxs]
        simp
      · simp only [splitOnChar, hsp]
        rw [if_neg hx]
        rw [List.reverse_cons, List.takeWhile_append_of_pos hallxs]
        simp [hx]

/-- The code's `split("/")[-1]` computes the spec's base name. -/
theorem data_file_of_eq_baseNameSpec (key : String) :
    data_file_of key = baseNameSpec key := by
  unfold data_file_of baseNameSpec
  rw [getLastD_splitOnChar]

/-! ### Claims -/

/-- C1 (counterexample): at bucket `"b"`, key `"k"` and the empty table, the
result document does not have four top-level keys: it has the five keys
`data_file`, `source_url`, `data_summary`, `top_10_most_expensive_trips`,
`payment_types`. -/
theorem result_keys_not_four :
    ((buildResult "b" "k" []).map Prod.fst).length ≠ 4
    ∧ (buildResult "b" "k" []).map Prod.fst
        = ["data_file", "source_url", "data_summary",
           "top_10_most_expensive_trips", "payment_types"] := by
  constructor
  · decide
  · rfl

/-- C1 (amended): for every valid four-argument invocation against a
well-formed input table, the result document contains exactly the five
top-level keys `data_file`, `source_url`, `data_summary`,
`top_10_most_expensive_trips`, `payment_types`, in that order. -/
theorem result_keys_exactly_five (bucket key : String) (df : List TripRow) :
    (buildResult bucket key df).map Prod.fst
      = ["data_file", "source_url", "data_summary",
         "top_10_most_expensive_trips", "payment_types"] := rfl

/-- C3: for every input bucket and key, `source_url` is the concatenation of
`"s3://"`, the bucket and the full key with no separating slash, and
`data_file` is the key's base name: the substring after the last `/`. -/
theorem source_url_and_data_file (bucket key : String) (df : List TripRow) :
    (buildResult bucket key df).lookup "source_url"
        = some (.str ("s3://" ++ bucket ++ key))
    ∧ (buildResult bucket key df).lookup "data_file"
        = some (.str (baseNameSpec key)) := by
  constructor
  · rfl
  · show some (JsonVal.str (data_file_of key)) = some (.str (baseNameSpec key))
    rw [data_file_of_eq_baseNameSpec]

/-- C2 (counterexample): on the run where the S3 read raises, `main` exits on
an error path with the session acquired but `spark.stop()` never reached: the
session is not released exactly once on that exit path. -/
theorem spark_stop_skipped_on_load_error :
    (mainRun envLoadFail "b" "k" "ob" "ok").2 = false
    ∧ (mainRun envLoadFail "b" "k" "ob" "ok").1.count Event.sparkStop = 0 := by
  constructor
  · rfl
  · rfl

/-- C2 (amended): the compute-engine session is released exactly once when the
run completes without error, and zero times when any stage raises: error paths
exit without releasing the session. -/
theorem spark_stop_count (env : Env) (a b c d : String) :
    (mainRun env a b c d).1.count Event.sparkStop
      = if (mainRun env a b c d).2 then 1 else 0 := by
  obtain ⟨l, cs, ct, cp, du, pu⟩ := env
  cases l <;> cases cs <;> cases ct <;> cases cp <;> cases du <;> cases pu <;>
    simp [mainRun, List.count_cons, List.count_nil]

/-- C8: whenever the argument count is wrong, the program prints the argument
count and a usage message and exits with status 0 (a non-error status), and
`main` is never entered: no storage access happens and no engine session is
acquired. -/
theorem usage_exit_on_wrong_arg_count (argv : List String) (env : Env)
    (h : argv.length ≠ 5) :
    topLevel argv env
      = [TopEvent.printArgCount argv.length, TopEvent.printUsage,
         TopEvent.exitStatus 0]
    ∧ ∀ t o, TopEvent.ranMain t o ∉ topLevel argv env := by
  have h1 : topLevel argv env
      = [TopEvent.printArgCount argv.length, TopEvent.printUsage,
         TopEvent.exitStatus 0] := by
    unfold topLevel
    rw [if_neg h]
    rfl
  refine ⟨h1, ?_⟩
  intro t o hmem
  rw [h1] at hmem
  simp at hmem

/-- C8 (witness): a two-element `sys.argv` prints the usage message and exits
with status 0. -/
theorem usage_exit_on_wrong_arg_count_witness :
    topLevel ["prog", "a"] envAllOk
      = [TopEvent.printArgCount 2, TopEvent.printUsage, TopEvent.exitStatus 0] :=
  (usage_exit_on_wrong_arg_count ["prog", "a"] envAllOk (by decide)).1

/-- C9: if the load, any of the three aggregate collections, or serialization
raises, no object is written at the output location; and on a fully successful
run exactly one object is written, the fully formed result document. -/
theorem no_partial_output (env : Env) (b k ob okk : String) :
    ((env.load = none ∨ env.collect_summary_ok = false
        ∨ env.collect_top_ok = false ∨ env.collect_payment_ok = false
        ∨ env.dumps_ok = false) →
      (mainRun env b k ob okk).1.filter Event.isPut = [])
    ∧ (∀ raw, env.load = some raw → env.collect_summary_ok = true →
        env.collect_top_ok = true → env.collect_payment_ok = true →
        env.dumps_ok = true → env.put_ok = true →
        (mainRun env b k ob okk).1.filter Event.isPut
          = [Event.s3PutSuccess ob okk (buildResult b k (dropna raw))]) := by
  obtain ⟨l, cs, ct, cp, du, pu⟩ := env
  constructor
  · cases l <;> cases cs <;> cases ct <;> cases cp <;> cases du <;> cases pu <;>
      intro hfail <;> simp_all [mainRun, Event.isPut]
  · intro raw hraw hcs hct hcp hdu hpu
    cases l with
    | none => exact absurd hraw (by simp)
    | some a =>
      have ha : a = raw := by
        injection hraw
      subst ha
      simp only at hcs hct hcp hdu hpu
      subst hcs
      subst hct
      subst hcp
      subst hdu
      subst hpu
      simp [mainRun, Event.isPut]

/-- C9 (witness): with a failing load nothing is written; with every stage
succeeding on the empty table, exactly the one result document is written. -/
theorem no_partial_output_witness :
    (mainRun envLoadFail "b" "k" "ob" "okk").1.filter Event.isPut = []
    ∧ (mainRun envAllOk "b" "k" "ob" "okk").1.filter Event.isPut
        = [Event.s3PutSuccess "ob" "okk" (buildResult "b" "k" (dropna []))] :=
  ⟨(no_partial_output envLoadFail "b" "k" "ob" "okk").1 (Or.inl rfl),
   (no_partial_output envAllOk "b" "k" "ob" "okk").2 [] rfl rfl rfl rfl rfl rfl⟩

/-- The descending-fare sort really is sorted descending by fare. -/
theorem pairwise_sortDescByFare (df : List TripRow) :
    (sortDescByFare df).Pairwise (fun a b => decide (b.fare ≤ a.fare) = true) := by
  unfold sortDescByFare
  apply List.sorted_mergeSort
  · intro a b c hab hbc
    simp only [decide_eq_true_eq] at hab hbc ⊢
    exact le_trans hbc hab
  · intro a b
    simp only [Bool.or_eq_true, decide_eq_true_eq]
    exact le_total b.fare a.fare

/-- C4: `top_10_most_expensive_trips` has length `min 10 row_count`, each of
its elements is one of the (full, all columns retained) rows of the
null-dropped table, together with the dropped tail of the sort it is a
permutation of the table, and every fare in it is at least every fare among
the excluded rows. -/
theorem top10_spec (df : List TripRow) :
    (top_10_expensive_trips df).length = min 10 df.length
    ∧ (∀ x ∈ top_10_expensive_trips df, x ∈ df)
    ∧ (top_10_expensive_trips df ++ (sortDescByFare df).drop 10).Perm df
    ∧ (∀ x ∈ top_10_expensive_trips df, ∀ y ∈ (sortDescByFare df).drop 10,
        y.fare ≤ x.fare) := by
  have hperm : (sortDescByFare df).Perm df := List.mergeSort_perm df _
  refine ⟨?_, ?_, ?_, ?_⟩
  · rw [top_10_expensive_trips, List.length_take, hperm.length_eq]
  · intro x hx
    exact hperm.mem_iff.mp (List.mem_of_mem_take hx)
  · rw [top_10_expensive_trips, List.take_append_drop]
    exact hperm
  · intro x hx y hy
    have hp := pairwise_sortDescByFare df
    rw [← List.take_append_drop 10 (sortDescByFare df)] at hp
    have hcross := (List.pairwise_append.mp hp).2.2
    exact of_decide_eq_true (hcross x hx y hy)

/-- `exTop` is already sorted descending by fare, so the sort keeps it. -/
theorem sortDesc_exTop : sortDescByFare exTop = exTop :=
  List.mergeSort_of_sorted (by decide)

/-- C4 (witness): on the spec's twelve-row example the top list has length
`min 10 12`, the fare-3 row is selected from the table, and the dropped
fare-2 row has a smaller fare. -/
theorem top10_spec_witness :
    (top_10_expensive_trips exTop).length = min 10 exTop.length
    ∧ (⟨"T3", 3, 1, []⟩ : TripRow) ∈ exTop
    ∧ (⟨"T2", 2, 1, []⟩ : TripRow).fare ≤ (⟨"T3", 3, 1, []⟩ : TripRow).fare := by
  have htop : top_10_expensive_trips exTop = exTop.take 10 := by
    rw [top_10_expensive_trips, sortDesc_exTop]
  have h := top10_spec exTop
  refine ⟨h.1, ?_, ?_⟩
  · exact h.2.1 ⟨"T3", 3, 1, []⟩ (by rw [htop]; decide)
  · exact h.2.2.2 ⟨"T3", 3, 1, []⟩ (by rw [htop]; decide)
      ⟨"T2", 2, 1, []⟩ (by rw [sortDesc_exTop]; decide)

/-- The dict-based `map_payment_type` computes the spec's fixed lookup table
with `"Other"` as default. -/
theorem map_payment_type_eq_paymentDescSpec (c : Int) :
    map_payment_type c = paymentDescSpec c := by
  have hbeq : ∀ a b : Int, (a == b) = decide (a = b) := fun a b => rfl
  simp only [map_payment_type, payment_map, List.lookup, paymentDescSpec, hbeq]
  split_ifs <;> simp_all

/-- Every row of `payment_type_percentage` arises from one distinct payment
code of the table, with all six fields computed from that code's group. -/
theorem mem_payment_type_percentage {df : List TripRow} {r : PaymentSummary}
    (hr : r ∈ payment_type_percentage df) :
    ∃ p ∈ (df.map (·.payment)).dedup,
      r = { payment_type := p
            trip_count := (paymentGroup df p).length
            avg_fare := round2 ((fares (paymentGroup df p)).sum
                / ((paymentGroup df p).length : ℚ))
            total_fare := round2 ((fares (paymentGroup df p)).sum)
            payment_type_desc := map_payment_type p
            percentage := round2 ((((paymentGroup df p).length : ℚ)
                / (df.length : ℚ)) * 100) } := by
  unfold payment_type_percentage payment_type_distribution at hr
  rcases List.mem_map.mp hr with ⟨q, hq, rfl⟩
  rcases List.mem_map.mp (List.mem_mergeSort.mp hq) with ⟨p, hp, rfl⟩
  exact ⟨p, hp, rfl⟩

/-- C6: every `payment_type_desc` is the fixed lookup table's value at the
row's code, with `"Other"` outside `{1..6}`, and the `payment_types` sequence
is ordered descending by `trip_count`. -/
theorem payment_desc_and_order (df : List TripRow) :
    (∀ r ∈ payment_type_percentage df,
      r.payment_type_desc = paymentDescSpec r.payment_type)
    ∧ (payment_type_percentage df).Pairwise
        (fun a b => b.trip_count ≤ a.trip_count) := by
  constructor
  · intro r hr
    rcases mem_payment_type_percentage hr with ⟨p, _, rfl⟩
    exact map_payment_type_eq_paymentDescSpec p
  · have hp : (payment_type_distribution df).Pairwise
        (fun a b => decide (b.trip_count ≤ a.trip_count) = true) := by
      unfold payment_type_distribution
      apply List.sorted_mergeSort
      · intro a b c hab hbc
        simp only [decide_eq_true_eq] at hab hbc ⊢
        omega
      · intro a b
        simp only [Bool.or_eq_true, decide_eq_true_eq]
        exact Nat.le_total b.trip_count a.trip_count
    unfold payment_type_percentage
    exact hp.map _ fun a b hab => by simpa using hab

/-- C7: `data_summary` has exactly one row per distinct `VendorID` of the
null-dropped table; each row carries that vendor group's size, fare sum and
arithmetic-mean fare; on the spec's example it yields `V1 ↦ (20, 3, 60)` and
`V2 ↦ (10, 2, 20)`. -/
theorem vendor_summary_spec (df : List TripRow) :
    ((df_summary df).map (·.VendorID)).Nodup
    ∧ (∀ v, v ∈ (df_summary df).map (·.VendorID) ↔ ∃ r ∈ df, r.vendorID = v)
    ∧ (∀ s ∈ df_summary df,
        s.num_trips = (df.filter (fun r => r.vendorID = s.VendorID)).length
        ∧ s.total_fare = (fares (df.filter (fun r => r.vendorID = s.VendorID))).sum
        ∧ s.avg_fare = s.total_fare / (s.num_trips : ℚ))
    ∧ df_summary exVendor = [⟨"V1", 20, 3, 60⟩, ⟨"V2", 10, 2, 20⟩] := by
  have hmap : (df_summary df).map (·.VendorID) = (df.map (·.vendorID)).dedup := by
    unfold df_summary
    rw [List.map_map]
    exact List.map_id' _
  refine ⟨?_, ?_, ?_, ?_⟩
  · rw [hmap]
    exact List.nodup_dedup _
  · intro v
    rw [hmap, List.mem_dedup, List.mem_map]
  · intro s hs
    unfold df_summary at hs
    rcases List.mem_map.mp hs with ⟨v, hv, rfl⟩
    exact ⟨rfl, rfl, rfl⟩
  · simp +decide [df_summary, exVendor, fares, List.dedup]
    norm_num

/-- C7 (witness): on the spec's example, the `V1` row's `num_trips` is the
size of the `V1` group. -/
theorem vendor_summary_spec_witness :
    (⟨"V1", 20, 3, 60⟩ : VendorSummary).num_trips
      = (exVendor.filter (fun r =>
          r.vendorID = (⟨"V1", 20, 3, 60⟩ : VendorSummary).VendorID)).length := by
  have h := vendor_summary_spec exVendor
  exact (h.2.2.1 ⟨"V1", 20, 3, 60⟩ (by rw [h.2.2.2]; decide)).1

/-- The group sizes reported by `payment_type_distribution` sum to the row
count of the (null-dropped) table: the groups partition the table. -/
theorem sum_trip_counts (df : List TripRow) :
    ((payment_type_distribution df).map (·.trip_count)).sum = df.length := by
  unfold payment_type_distribution
  rw [((List.mergeSort_perm _ _).map (fun r : PaymentRow => r.trip_count)).sum_eq,
    List.map_map]
  exact sum_map_length_filter_eq_length (fun r => r.payment) _ df
    (List.nodup_dedup _)
    (fun r hrm => List.mem_dedup.mpr (List.mem_map.mpr ⟨r, hrm, rfl⟩))

/-- C5: every `payment_types` row's `percentage` is `trip_count` over the
total trip count times 100, rounded to two decimals, and the percentages sum
to 100 within the accumulated two-decimal rounding error (at most `1/200` per
row). -/
theorem payment_percentage_spec (df : List TripRow) (hne : df ≠ []) :
    (∀ r ∈ payment_type_percentage df,
      r.percentage = round2 (((r.trip_count : ℚ) / (df.length : ℚ)) * 100))
    ∧ |((payment_type_percentage df).map (·.percentage)).sum - 100|
        ≤ ((payment_type_percentage df).length : ℚ) * (1/200) := by
  constructor
  · intro r hr
    rcases mem_payment_type_percentage hr with ⟨p, _, rfl⟩
    rfl
  · have hN : ((df.length : ℚ)) ≠ 0 := by
      have h0 : df.length ≠ 0 := fun h0 => hne (List.length_eq_zero.mp h0)
      exact Nat.cast_ne_zero.mpr h0
    have htcq : ((payment_type_distribution df).map
        (fun r => (r.trip_count : ℚ))).sum = (df.length : ℚ) := by
      have hmm : (payment_type_distribution df).map (fun r => (r.trip_count : ℚ))
          = ((payment_type_distribution df).map (·.trip_count)).map
              (fun n : Nat => (n : ℚ)) := by
        rw [List.map_map]
        rfl
      rw [hmm, ← Nat.cast_list_sum, sum_trip_counts]
    have hxs_sum : ((payment_type_distribution df).map
        (fun r => ((r.trip_count : ℚ) / (df.length : ℚ)) * 100)).sum = 100 := by
      rw [sum_map_div_mul, htcq, div_self hN]
      norm_num
    have hpct : (payment_type_percentage df).map (·.percentage)
        = ((payment_type_distribution df).map
            (fun r => ((r.trip_count : ℚ) / (df.length : ℚ)) * 100)).map round2 := by
      unfold payment_type_percentage
      rw [List.map_map, List.map_map]
      rfl
    have habs := abs_sum_map_round2_sub_le ((payment_type_distribution df).map
        (fun r => ((r.trip_count : ℚ) / (df.length : ℚ)) * 100))
    rw [hxs_sum] at habs
    have hlen2 : ((payment_type_distribution df).map
        (fun r => ((r.trip_count : ℚ) / (df.length : ℚ)) * 100)).length
        = (payment_type_percentage df).length := by
      simp [payment_type_percentage]
    rw [hlen2] at habs
    rw [hpct]
    exact habs

/-- C10: the denominator of every `payment_types` percentage is the row count
of the null-dropped table, not the raw input's row count: each percentage is
the group's share of null-free rows. -/
theorem percentage_denominator_is_dropped_count (raw : List RawRow)
    (r : PaymentSummary) (hr : r ∈ payment_type_percentage (dropna raw)) :
    r.percentage
      = round2 (((r.trip_count : ℚ) / ((dropna raw).length : ℚ)) * 100) := by
  rcases mem_payment_type_percentage hr with ⟨p, _, rfl⟩
  rfl

/-- The full payment-type output on the spec's `[1, 1, 2]` example: code 1
("Credit card") has 2 trips and 66.67%, code 2 ("Cash") has 1 trip and
33.33%, ordered descending by trip count. -/
theorem payment_concrete :
    payment_type_percentage exPay
      = [⟨1, 2, 15, 30, "Credit card", 6667/100⟩,
         ⟨2, 1, 30, 30, "Cash", 3333/100⟩] := by
  have hd : (exPay.map (·.payment)).dedup = [1, 2] := by decide
  unfold payment_type_percentage payment_type_distribution
  rw [hd]
  rw [List.map_cons, List.map_cons, List.map_nil]
  rw [mergeSort_pair _ _ _ (by decide)]
  simp +decide [paymentGroup, exPay, fares]
  norm_num [round2, roundHalfUp, map_payment_type, payment_map, List.lookup]

/-- C5 (witness): on the `[1, 1, 2]` example, the code-1 row's percentage is
`round2 (2/3 * 100)` and the percentages sum to 100 within the bound. -/
theorem payment_percentage_spec_witness :
    (⟨1, 2, 15, 30, "Credit card", 6667/100⟩ : PaymentSummary).percentage
      = round2 ((((⟨1, 2, 15, 30, "Credit card", 6667/100⟩
            : PaymentSummary).trip_count : ℚ) / (exPay.length : ℚ)) * 100)
    ∧ |((payment_type_percentage exPay).map (·.percentage)).sum - 100|
        ≤ ((payment_type_percentage exPay).length : ℚ) * (1/200) := by
  have h := payment_percentage_spec exPay (by decide)
  exact ⟨h.1 _ (by rw [payment_concrete]; exact List.mem_cons_self _ _), h.2⟩

/-- C6 (witness): on the `[1, 1, 2]` example, the code-1 row's description is
the lookup table's value at code 1, and the rows are ordered descending by
trip count. -/
theorem payment_desc_and_order_witness :
    (⟨1, 2, 15, 30, "Credit card", 6667/100⟩ : PaymentSummary).payment_type_desc
      = paymentDescSpec (⟨1, 2, 15, 30, "Credit card", 6667/100⟩
          : PaymentSummary).payment_type
    ∧ (payment_type_percentage exPay).Pairwise
        (fun a b => b.trip_count ≤ a.trip_count) :=
  ⟨(payment_desc_and_order exPay).1 _
      (by rw [payment_concrete]; exact List.mem_cons_self _ _),
   (payment_desc_and_order exPay).2⟩

/-- C10 (witness): with one null row among four raw rows, the null-dropped
count is 3 (not 4), the code-1 percentage divides by 3, and dividing by the
raw count 4 would give a different value. -/
theorem percentage_denominator_witness :
    (⟨1, 2, 15, 30, "Credit card", 6667/100⟩ : PaymentSummary).percentage
      = round2 ((((⟨1, 2, 15, 30, "Credit card", 6667/100⟩
            : PaymentSummary).trip_count : ℚ) / ((dropna exRaw).length : ℚ)) * 100)
    ∧ (dropna exRaw).length = 3
    ∧ exRaw.length = 4
    ∧ round2 (((2 : ℚ) / 3) * 100) ≠ round2 (((2 : ℚ) / 4) * 100) := by
  have hdrop : dropna exRaw = exPay := by decide
  refine ⟨?_, by rw [hdrop]; rfl, rfl, ?_⟩
  · exact percentage_denominator_is_dropped_count exRaw _
      (by rw [hdrop, payment_concrete]; exact List.mem_cons_self _ _)
  · norm_num [round2, roundHalfUp]
